import Mathlib

/-!
Verification of the server-agent repository.

Part 1 embeds the SSE-consuming client `ApiClient.query`
(frontend/src/api/client.ts).  The byte stream delivered by the reader is
modelled as a list of chunks of characters; JSON.parse together with the
dynamic field access on the parsed object is abstracted as a function
`List Char -> Except String SSEEvent` supplied to the loop (a parse failure
is an `Except.error` carrying the exception message).  The `onStatus`
callback is modelled by recording the sequence of messages it would be
called with; a thrown error carries the statuses emitted before the throw
so that the full observable behaviour of a turn is a `TurnOutcome`.

Part 2 (later in the file) models the backend orchestrator, guards and
schema synchronizer from the specification, because that code is not part
of the sources provided under src/.
-/

/-- The `data` payload of `QueryResponse` (interface QueryResponse in
client.ts); the untyped `raw: any` field is modelled opaquely as a string. -/
structure QueryData where
  report : String
  suggested_actions : List String
  raw : String
deriving DecidableEq

/-- Mirror of `interface QueryResponse` in client.ts. -/
structure QueryResponse where
  ok : Bool
  agent : String
  data : Option QueryData
  error : Option String
  clarification_needed : Option Bool
  clarification_message : Option String
  session_id : Option String
deriving DecidableEq

/-- The object built in the `data.type === 'clarification'` branch of
`ApiClient.query` (client.ts lines 130-140). -/
def clarificationResponse (message : String) (sessionId : Option String) : QueryResponse :=
  { ok := true
    agent := "system"
    session_id := sessionId
    data := none
    error := none
    clarification_needed := some true
    clarification_message := some message }

/-- Message of the error thrown when the stream ends with `finalResult`
still null (client.ts line 162). -/
def noResultMessage : String := "No result received from server (Stream ended without result)"

/-- Classification of one parsed `data:` payload by its `type` field, as
dispatched in the loop body of `ApiClient.query`.  `other` stands for a
JSON object whose `type` is none of the four recognised tags (the loop
body does nothing for it). -/
inductive SSEEvent where
  | status (message : String)
  | result (payload : QueryResponse)
  | clarification (message : String) (sessionId : Option String)
  | error (message : String)
  | other
deriving DecidableEq

deriving instance DecidableEq for Except

/-- The mutable locals of the read loop: `finalResult` and the record of
`onStatus` calls made so far. -/
structure LoopState where
  finalResult : Option QueryResponse
  statuses : List String
deriving DecidableEq

/-- Effect of one recognised event on the loop state, per the
if/else-if chain in client.ts lines 126-144.  An `error` event throws,
carrying the statuses already delivered. -/
def handleData (st : LoopState) : SSEEvent → Except (String × List String) LoopState
  | SSEEvent.status m => Except.ok { st with statuses := st.statuses ++ [m] }
  | SSEEvent.result p => Except.ok { st with finalResult := some p }
  | SSEEvent.clarification m sid =>
      Except.ok { st with finalResult := some (clarificationResponse m sid) }
  | SSEEvent.error m => Except.error (m, st.statuses)
  | SSEEvent.other => Except.ok st

/-- JavaScript `line.trim()`: strip whitespace from both ends. -/
def trimChars (s : List Char) : List Char :=
  ((s.dropWhile Char.isWhitespace).reverse.dropWhile Char.isWhitespace).reverse

/-- The SSE line marker checked by `trimmedLine.startsWith('data: ')`. -/
def dataHeader : List Char := "data: ".toList

/-- Guard at client.ts line 121: an empty trimmed line or one without the
`data: ` marker is skipped; otherwise `trimmedLine.slice(6)` is the JSON
payload handed to the parser. -/
def dataPayload (line : List Char) : Option (List Char) :=
  let t := trimChars line
  if t = [] then none
  else if dataHeader.isPrefixOf t then some (t.drop 6) else none

/-- Processing of one complete line in the current client: a parse failure
is rethrown by the inner catch (client.ts lines 145-148), aborting the turn. -/
def processLine (parse : List Char → Except String SSEEvent) (st : LoopState)
    (line : List Char) : Except (String × List String) LoopState :=
  match dataPayload line with
  | none => Except.ok st
  | some payload =>
    match parse payload with
    | Except.ok ev => handleData st ev
    | Except.error e => Except.error (e, st.statuses)

/-- The inner `for (const line of lines)` loop over the complete lines of
one or more chunks. -/
def runLines (parse : List Char → Except String SSEEvent) :
    LoopState → List (List Char) → Except (String × List String) LoopState
  | st, [] => Except.ok st
  | st, l :: ls =>
    match processLine parse st l with
    | Except.ok st2 => runLines parse st2 ls
    | Except.error e => Except.error e

/-- JavaScript `buffer.split('\n')` followed by `buffer = lines.pop()`:
the first component is the list of complete (newline-terminated) lines,
the second is the trailing fragment retained as the new buffer. -/
def splitLines : List Char → List (List Char) × List Char
  | [] => ([], [])
  | c :: cs =>
    let p := splitLines cs
    if c = '\n' then ([] :: p.1, p.2)
    else
      match p.1 with
      | [] => ([], c :: p.2)
      | l :: ls => ((c :: l) :: ls, p.2)

/-- The outer `while (true)` read loop: each chunk is appended to the
buffer, the complete lines are processed, and the trailing fragment
becomes the new buffer.  When the reader reports done, the loop exits and
any leftover buffer is discarded unprocessed. -/
def runChunks (parse : List Char → Except String SSEEvent) :
    LoopState → List Char → List (List Char) → Except (String × List String) LoopState
  | st, _, [] => Except.ok st
  | st, buffer, chunk :: rest =>
    match runLines parse st (splitLines (buffer ++ chunk)).1 with
    | Except.ok st2 => runChunks parse st2 (splitLines (buffer ++ chunk)).2 rest
    | Except.error e => Except.error e

/-- Observable behaviour of one call to `ApiClient.query`: the promise
either resolves with a `QueryResponse` or rejects with an error message;
either way the recorded `onStatus` calls are part of the observation. -/
inductive TurnOutcome where
  | resolved (value : QueryResponse) (statuses : List String)
  | rejected (message : String) (statuses : List String)
deriving DecidableEq

/-- Initial loop state: `finalResult = null`, no `onStatus` call yet. -/
def initialLoopState : LoopState := { finalResult := none, statuses := [] }

/-- Epilogue of `ApiClient.query`: a thrown error rejects the turn; a
normally ended stream resolves with `finalResult` if it was set and
otherwise throws the no-result error (client.ts lines 160-165). -/
def finishTurn : Except (String × List String) LoopState → TurnOutcome
  | Except.error (m, sts) => TurnOutcome.rejected m sts
  | Except.ok st =>
    match st.finalResult with
    | none => TurnOutcome.rejected noResultMessage st.statuses
    | some r => TurnOutcome.resolved r st.statuses

/-- The streaming part of `ApiClient.query` (client.ts lines 103-165),
from the first `reader.read()` to the returned or thrown value, over a
given chunking of the response body. -/
def ApiClient.query (parse : List Char → Except String SSEEvent)
    (chunks : List (List Char)) : TurnOutcome :=
  finishTurn (runChunks parse initialLoopState [] chunks)

/-- Line-level semantics of the same loop: process a list of already
complete lines. -/
def queryLines (parse : List Char → Except String SSEEvent)
    (lines : List (List Char)) : TurnOutcome :=
  finishTurn (runLines parse initialLoopState lines)

/-- The complete lines of a stream: everything before the last newline of
the concatenated chunks: a trailing fragment with no terminating newline
is not part of them. -/
def processedLines (chunks : List (List Char)) : List (List Char) :=
  (splitLines chunks.flatten).1

/-- The parsed events carried by the `data: ` lines of a line list; lines
skipped by the guard contribute nothing. -/
def turnEvents (parse : List Char → Except String SSEEvent)
    (lines : List (List Char)) : List (Except String SSEEvent) :=
  lines.filterMap (fun l => (dataPayload l).map parse)

/-- The loop restricted to the event sequence: same dispatch as
`runLines`, with the skipped lines already dropped. -/
def runEvents : LoopState → List (Except String SSEEvent) → Except (String × List String) LoopState
  | st, [] => Except.ok st
  | st, Except.error e :: _ => Except.error (e, st.statuses)
  | st, Except.ok ev :: rest =>
    match handleData st ev with
    | Except.ok st2 => runEvents st2 rest
    | Except.error e => Except.error e

/-- Status messages contained in an event sequence, in order. -/
def statusesOf (evs : List (Except String SSEEvent)) : List String :=
  evs.filterMap (fun e =>
    match e with
    | Except.ok (SSEEvent.status m) => some m
    | _ => none)

/-- An event that neither is a parse failure nor an `error` event: the
loop body processes it without throwing. -/
def nonThrowing : Except String SSEEvent → Bool
  | Except.error _ => false
  | Except.ok (SSEEvent.error _) => false
  | _ => true

/-- The three event kinds that terminate a turn per the streaming
contract. -/
def isTerminalEvent : SSEEvent → Bool
  | SSEEvent.result _ => true
  | SSEEvent.clarification _ _ => true
  | SSEEvent.error _ => true
  | _ => false

/-- Outcome the streaming contract assigns to a turn ending in the given
terminal event after the given status messages. -/
def terminalOutcome : SSEEvent → List String → TurnOutcome
  | SSEEvent.result p, sts => TurnOutcome.resolved p sts
  | SSEEvent.clarification m sid, sts => TurnOutcome.resolved (clarificationResponse m sid) sts
  | SSEEvent.error m, sts => TurnOutcome.rejected m sts
  | _, sts => TurnOutcome.rejected noResultMessage sts

/-- Recogniser for successfully parsed `status` events. -/
def isStatusEvent : Except String SSEEvent → Bool
  | Except.ok (SSEEvent.status _) => true
  | _ => false

/-- An event sequence with all `status` events removed. -/
def coreEvents (evs : List (Except String SSEEvent)) : List (Except String SSEEvent) :=
  evs.filter (fun e => !(isStatusEvent e))

/-- The resolved value or thrown message of a turn, without the
`onStatus` trace. -/
def valuePart : TurnOutcome → Except String QueryResponse
  | TurnOutcome.resolved v _ => Except.ok v
  | TurnOutcome.rejected m _ => Except.error m

/-- Projection of a loop run to the value it determines: the eventual
`finalResult` on normal exit, or the thrown message. -/
def projVal : Except (String × List String) LoopState → Except String (Option QueryResponse)
  | Except.ok st => Except.ok st.finalResult
  | Except.error (m, _) => Except.error m

/-- Status-free recursion computing only the eventual `finalResult`. -/
def runVal : Option QueryResponse → List (Except String SSEEvent) → Except String (Option QueryResponse)
  | fr, [] => Except.ok fr
  | _, Except.error e :: _ => Except.error e
  | fr, Except.ok ev :: rest =>
    match ev with
    | SSEEvent.status _ => runVal fr rest
    | SSEEvent.result p => runVal (some p) rest
    | SSEEvent.clarification m sid => runVal (some (clarificationResponse m sid)) rest
    | SSEEvent.error m => Except.error m
    | SSEEvent.other => runVal fr rest

/-- Conversion of a final `finalResult` value into the turn value: null
becomes the thrown no-result error. -/
def valueOfRun : Except String (Option QueryResponse) → Except String QueryResponse
  | Except.ok none => Except.error noResultMessage
  | Except.ok (some r) => Except.ok r
  | Except.error m => Except.error m

/-- Splicing helper for `splitLines` over an append: the trailing
fragment of the left part is glued onto the first line of the right part. -/
def mergeLines (fa : List Char) : List (List Char) → List (List Char)
  | [] => []
  | l :: ls => (fa ++ l) :: ls

/-- Trailing fragment of an appended stream: the left fragment survives
only when the right part contains no newline at all. -/
def mergeFrag (fa fb : List Char) : List (List Char) → List Char
  | [] => fa ++ fb
  | _ :: _ => fb

/-!
Part 2: the agent execution engine.  The backend sources
(backend/src/agents, backend/src/schema, backend/src/middleware) are not
among the provided source files; only the repository READMEs describe
them.  The definitions below are therefore modelled from the
specification, as noted on each one.
-/

/-- Modelled from the spec: the SQL-safety cycle bound MAX_SQL_RETRY of
the orchestrator, instantiated with the example value given in spec 4.1;
the backend state-machine module is missing from the provided sources. -/
def MAX_SQL_RETRY : Nat := 3

/-- Modelled from the spec: the reflection cycle bound
MAX_VALIDATION_RETRY of the orchestrator, instantiated with the example
value given in spec 4.1. -/
def MAX_VALIDATION_RETRY : Nat := 2

/-- Modelled from the spec: the workflow nodes of the agent graph
(README mermaid graph, spec 4.1), plus the terminal done state. -/
inductive GraphNode where
  | parse_request
  | validate_request
  | retrieve_tables
  | select_tables
  | generate_sql
  | guard_sql_node
  | execute_sql_node
  | normalize_result
  | validate_llm
  | generate_report
  | done
deriving DecidableEq

/-- Modelled from the spec: the per-turn orchestrator state relevant to
the retry budgets (TurnState of spec section 3, restricted to the node
pointer, both counters, the retry log and the failure reason). -/
structure AgentTurnState where
  node : GraphNode
  sql_retry_count : Nat
  validation_retry_count : Nat
  retry_log : List String
  failure_reason : Option String
deriving DecidableEq

/-- Modelled from the spec: the outcome a node reports to the
orchestrator, one constructor per labelled edge of the workflow graph. -/
inductive NodeOutcome where
  | parsed
  | requestValid
  | requestInvalid (reason : String)
  | tablesRetrieved
  | contextSelected
  | noContext (reason : String)
  | sqlGenerated
  | guardOk
  | guardViolation (reason : String)
  | execSuccess
  | execRetryable (message : String)
  | execFatal (message : String)
  | resultNormalized
  | validationOk
  | validationMismatch (reason : String)
  | reportGenerated
deriving DecidableEq

/-- Modelled from the spec: the orchestrator transition function
(spec 4.1, 4.4, 4.5, 4.6).  A guard violation or retryable execution
error re-enters the generator while the SQL retry budget lasts and
otherwise reports a failure; a validation mismatch does the same against
the validation budget; an outcome that the current node cannot produce
leaves the state unchanged. -/
def stepAgent (s : AgentTurnState) (o : NodeOutcome) : AgentTurnState :=
  match s.node, o with
  | GraphNode.parse_request, NodeOutcome.parsed => { s with node := GraphNode.validate_request }
  | GraphNode.validate_request, NodeOutcome.requestValid => { s with node := GraphNode.retrieve_tables }
  | GraphNode.validate_request, NodeOutcome.requestInvalid r =>
      { s with node := GraphNode.generate_report, failure_reason := some r }
  | GraphNode.retrieve_tables, NodeOutcome.tablesRetrieved => { s with node := GraphNode.select_tables }
  | GraphNode.select_tables, NodeOutcome.contextSelected => { s with node := GraphNode.generate_sql }
  | GraphNode.select_tables, NodeOutcome.noContext r =>
      { s with node := GraphNode.generate_report, failure_reason := some r }
  | GraphNode.generate_sql, NodeOutcome.sqlGenerated => { s with node := GraphNode.guard_sql_node }
  | GraphNode.guard_sql_node, NodeOutcome.guardOk => { s with node := GraphNode.execute_sql_node }
  | GraphNode.guard_sql_node, NodeOutcome.guardViolation r =>
      if s.sql_retry_count < MAX_SQL_RETRY then
        { s with node := GraphNode.generate_sql
                 sql_retry_count := s.sql_retry_count + 1
                 retry_log := s.retry_log ++ [r] }
      else
        { s with node := GraphNode.generate_report
                 failure_reason := some ("blocked query: " ++ r) }
  | GraphNode.execute_sql_node, NodeOutcome.execSuccess => { s with node := GraphNode.normalize_result }
  | GraphNode.execute_sql_node, NodeOutcome.execRetryable m =>
      if s.sql_retry_count < MAX_SQL_RETRY then
        { s with node := GraphNode.generate_sql
                 sql_retry_count := s.sql_retry_count + 1
                 retry_log := s.retry_log ++ [m] }
      else
        { s with node := GraphNode.generate_report
                 failure_reason := some ("sql retries exhausted: " ++ m) }
  | GraphNode.execute_sql_node, NodeOutcome.execFatal m =>
      { s with node := GraphNode.generate_report, failure_reason := some m }
  | GraphNode.normalize_result, NodeOutcome.resultNormalized => { s with node := GraphNode.validate_llm }
  | GraphNode.validate_llm, NodeOutcome.validationOk => { s with node := GraphNode.generate_report }
  | GraphNode.validate_llm, NodeOutcome.validationMismatch r =>
      if s.validation_retry_count < MAX_VALIDATION_RETRY then
        { s with node := GraphNode.generate_sql
                 validation_retry_count := s.validation_retry_count + 1
                 retry_log := s.retry_log ++ [r] }
      else
        { s with node := GraphNode.generate_report
                 failure_reason := some ("validation retries exhausted: " ++ r) }
  | GraphNode.generate_report, NodeOutcome.reportGenerated => { s with node := GraphNode.done }
  | _, _ => s

/-- Modelled from the spec: the state a turn starts in, with both retry
counters zero. -/
def initialTurnState : AgentTurnState :=
  { node := GraphNode.parse_request
    sql_retry_count := 0
    validation_retry_count := 0
    retry_log := []
    failure_reason := none }

/-- All states a turn passes through while consuming a sequence of node
outcomes, starting state included. -/
def agentTrace : AgentTurnState → List NodeOutcome → List AgentTurnState
  | s, [] => [s]
  | s, o :: os => s :: agentTrace (stepAgent s o) os

/-- Position of a node in the forward order of the workflow; every
forward edge strictly decreases it. -/
def nodeRank : GraphNode → Nat
  | GraphNode.parse_request => 10
  | GraphNode.validate_request => 9
  | GraphNode.retrieve_tables => 8
  | GraphNode.select_tables => 7
  | GraphNode.generate_sql => 6
  | GraphNode.guard_sql_node => 5
  | GraphNode.execute_sql_node => 4
  | GraphNode.normalize_result => 3
  | GraphNode.validate_llm => 2
  | GraphNode.generate_report => 1
  | GraphNode.done => 0

/-- Variant combining the remaining retry budgets with the node rank;
every state-changing transition strictly decreases it, so no cycle of the
graph can run unboundedly. -/
def agentMeasure (s : AgentTurnState) : Nat :=
  10 * (MAX_SQL_RETRY - s.sql_retry_count) +
  10 * (MAX_VALIDATION_RETRY - s.validation_retry_count) +
  nodeRank s.node

/-- Modelled from the spec: column metadata of a table candidate
(TableCandidate in spec section 3). -/
structure ColumnMeta where
  name : String
  dtype : String
  constraints : String
  comment : String
deriving DecidableEq

/-- Modelled from the spec: a retrieved table candidate with its
immutable metadata snapshot. -/
structure TableCandidate where
  table_id : String
  relevance_score : Int
  column_metadata : List ColumnMeta
  table_comment : String
deriving DecidableEq

/-- Modelled from the spec: the partitioned table context of a turn,
active tables committed to the prompt and the remaining candidates cached
by id (table_expand_tool.py is missing from the provided sources). -/
structure TableContext where
  active_tables : List TableCandidate
  cached_tables : List (String × TableCandidate)
deriving DecidableEq

/-- Result of a table-expansion call, instrumented with the list of
vector-index similarity searches the call issued. -/
structure ExpandOutcome where
  ctx : TableContext
  returned : List TableCandidate
  vector_searches : List String
deriving DecidableEq

/-- Modelled from the spec: the expand_tables tool.  It looks the
requested ids up in cached_tables, moves the entries found into
active_tables and returns their metadata; it issues no vector-index
search. -/
def expand_tables (ctx : TableContext) (ids : List String) : ExpandOutcome :=
  let moved := ctx.cached_tables.filter (fun p => decide (p.1 ∈ ids))
  { ctx :=
      { active_tables := ctx.active_tables ++ moved.map Prod.snd
        cached_tables := ctx.cached_tables.filter (fun p => decide (p.1 ∉ ids)) }
    returned := moved.map Prod.snd
    vector_searches := [] }

/-- Modelled from the spec: the time-range mode of a structured request. -/
inductive TimeMode where
  | all_time
  | inherit
  | explicit
deriving DecidableEq

/-- Modelled from the spec: the time range of a structured request;
bounds are minutes from local midnight (the spec test speaks of 00:00,
15:00 and 24:00). -/
structure TimeRange where
  startMin : Nat
  endMin : Nat
  mode : TimeMode
deriving DecidableEq

/-- Modelled from the spec: the structured request the parser hands to
the request guard, together with the three deterministic signals the
guard dispatches on (today/relative-day phrasing, any temporal language,
referential language). -/
structure StructuredRequest where
  intent : String
  metric : String
  time_range : TimeRange
  filters : List String
  inherits_previous : Bool
  implies_relative_day : Bool
  has_temporal_language : Bool
  has_referential_language : Bool
deriving DecidableEq

/-- Result of the request guard, instrumented with the list of LLM calls
it made (the guard is specified as deterministic, making none). -/
structure GuardOutcome where
  request : StructuredRequest
  llm_calls : List String
deriving DecidableEq

/-- Modelled from the spec: the deterministic request guard of spec 4.2
(the ParsedRequestGuard middleware is missing from the provided sources).
Rule (b): no temporal language forces all_time mode; rule (c):
referential language forces inherit mode; rule (a): today/relative-day
phrasing reaching past the current moment has its end bound clipped to
now, in explicit mode. -/
def guardRequest (now : Nat) (r : StructuredRequest) : GuardOutcome :=
  let r1 :=
    if r.has_temporal_language = false then
      { r with time_range := { r.time_range with mode := TimeMode.all_time } }
    else if r.has_referential_language = true then
      { r with inherits_previous := true
               time_range := { r.time_range with mode := TimeMode.inherit } }
    else if r.implies_relative_day = true ∧ now < r.time_range.endMin then
      { r with time_range :=
          { startMin := r.time_range.startMin, endMin := now, mode := TimeMode.explicit } }
    else r
  { request := r1, llm_calls := [] }

/-- Modelled from the spec: the DDL-equivalent description of one table
that the schema synchronizer hashes. -/
structure TableSchemaDesc where
  table_id : String
  ddl_text : String
deriving DecidableEq

/-- Deterministic string hash used by the structural table hashes. -/
def strHash (s : String) : Nat :=
  s.foldl (fun a c => a * 131 + c.toNat + 1) 7

/-- Modelled from the spec: the structural hash of one table computed
from its DDL-equivalent description. -/
def tableHash (t : TableSchemaDesc) : Nat :=
  strHash t.table_id * 1000003 + strHash t.ddl_text

/-- Modelled from the spec: the aggregate hash over all table hashes. -/
def aggregateHash (ts : List TableSchemaDesc) : Nat :=
  ts.foldl (fun a t => a * 1000033 + tableHash t) 11

/-- Modelled from the spec: the persisted hash record the synchronizer
compares against. -/
structure SyncStore where
  aggregate_hash : Option Nat
  table_hashes : List (String × Nat)
deriving DecidableEq

/-- Embedding upserts and deletions a synchronizer run sends to the
vector index. -/
structure SyncActions where
  upserts : List String
  deletes : List String
deriving DecidableEq

/-- Result of one synchronizer run: the updated persisted record and the
index actions performed. -/
structure SyncRun where
  store : SyncStore
  actions : SyncActions
deriving DecidableEq

/-- Modelled from the spec: the table-level diff of spec 4.7: added or
changed tables are upserted, removed tables are deleted. -/
def diffActions (old : List (String × Nat)) (schema : List TableSchemaDesc) : SyncActions :=
  { upserts := (schema.filter (fun t => decide ((t.table_id, tableHash t) ∉ old))).map
      (fun t => t.table_id)
    deletes := (old.filter (fun p => decide (∀ t ∈ schema, t.table_id ≠ p.1))).map Prod.fst }

/-- Modelled from the spec: one schema synchronizer run (sync.py is
missing from the provided sources).  If the freshly computed aggregate
hash equals the persisted one the run skips re-embedding entirely;
otherwise it diffs per-table hashes and persists the new record. -/
def syncRun (st : SyncStore) (schema : List TableSchemaDesc) : SyncRun :=
  let agg := aggregateHash schema
  if st.aggregate_hash = some agg then
    { store := st, actions := { upserts := [], deletes := [] } }
  else
    { store :=
        { aggregate_hash := some agg
          table_hashes := schema.map (fun t => (t.table_id, tableHash t)) }
      actions := diffActions st.table_hashes schema }

/-- Modelled from the spec: the destructive-statement denylist of the SQL
safety guard (spec 4.4 lists DROP, DELETE, TRUNCATE, ALTER, GRANT as its
named entries). -/
def denylist : List String := ["DROP", "DELETE", "TRUNCATE", "ALTER", "GRANT"]

/-- Case-insensitive rendering of the SQL text for the keyword scan. -/
def upperChars (sql : String) : List Char := sql.toList.map Char.toUpper

/-- Whether the SQL text contains the (uppercase) keyword, case
insensitively. -/
def containsToken (sql : String) (kw : String) : Bool :=
  decide (List.IsInfix kw.toList (upperChars sql))

/-- Drop one statement-final semicolon before the single-statement scan. -/
def stripTrailingSemi (t : List Char) : List Char :=
  if t.getLast? = some ';' then t.dropLast else t

/-- Modelled from the spec: the minimal structural sanity check of the
safety guard: a non-empty single statement, with no interior semicolon. -/
def singleWellFormed (sql : String) : Bool :=
  let t := trimChars sql.toList
  decide (t ≠ []) && (stripTrailingSemi t).all (fun c => decide (c ≠ ';'))

/-- Verdict of the SQL safety guard. -/
inductive GuardVerdict where
  | ok
  | rejected (reason : String)
deriving DecidableEq

/-- Modelled from the spec: the deterministic SQL safety guard
(SqlOutputGuard is missing from the provided sources): reject any input
failing the structural check and any statement containing a denylisted
destructive keyword, accept otherwise. -/
def guardSql (sql : String) : GuardVerdict :=
  if singleWellFormed sql = false then
    GuardVerdict.rejected "not a single well-formed SQL statement"
  else
    match denylist.find? (fun kw => containsToken sql kw) with
    | some kw => GuardVerdict.rejected ("destructive keyword blocked: " ++ kw)
    | none => GuardVerdict.ok

/-- The node outcome the orchestrator derives from a guard verdict. -/
def verdictOutcome : GuardVerdict → NodeOutcome
  | GuardVerdict.ok => NodeOutcome.guardOk
  | GuardVerdict.rejected r => NodeOutcome.guardViolation r

/-- A concrete response used to exercise the client embedding on closed
inputs. -/
def demoResponse : QueryResponse :=
  { ok := true
    agent := "sql"
    data := some { report := "average cpu was 42", suggested_actions := [], raw := "" }
    error := none
    clarification_needed := none
    clarification_message := none
    session_id := none }

/-- A concrete stand-in for JSON.parse plus type dispatch, mapping small
tag payloads to events and everything else to a parse failure. -/
def demoParse : List Char → Except String SSEEvent := fun payload =>
  if payload = "S".toList then Except.ok (SSEEvent.status "generating sql")
  else if payload = "R".toList then Except.ok (SSEEvent.result demoResponse)
  else if payload = "C".toList then
    Except.ok (SSEEvent.clarification "which period?" (some "sess-1"))
  else if payload = "E".toList then Except.ok (SSEEvent.error "agent failed")
  else Except.error "Unexpected token in JSON"

/-- A guard-node turn state whose SQL retry budget is exhausted. -/
def exhaustedGuardState : AgentTurnState :=
  { node := GraphNode.guard_sql_node
    sql_retry_count := MAX_SQL_RETRY
    validation_retry_count := 0
    retry_log := []
    failure_reason := none }

/-- A validation-node turn state whose validation retry budget is
exhausted. -/
def exhaustedValidationState : AgentTurnState :=
  { node := GraphNode.validate_llm
    sql_retry_count := 0
    validation_retry_count := MAX_VALIDATION_RETRY
    retry_log := []
    failure_reason := none }

/-- A guard-node turn state with remaining SQL retry budget. -/
def guardNodeState : AgentTurnState :=
  { node := GraphNode.guard_sql_node
    sql_retry_count := 1
    validation_retry_count := 0
    retry_log := []
    failure_reason := none }

/-- A concrete active table candidate. -/
def demoCandA : TableCandidate :=
  { table_id := "metrics_cpu"
    relevance_score := 9
    column_metadata := [{ name := "cpu_percent", dtype := "float", constraints := "", comment := "" }]
    table_comment := "cpu metrics" }

/-- A concrete cached table candidate. -/
def demoCandB : TableCandidate :=
  { table_id := "metrics_gpu"
    relevance_score := 5
    column_metadata := []
    table_comment := "gpu metrics" }

/-- Another concrete cached table candidate. -/
def demoCandC : TableCandidate :=
  { table_id := "metrics_mem"
    relevance_score := 4
    column_metadata := []
    table_comment := "memory metrics" }

/-- A concrete table context with one active and two cached tables. -/
def demoTableContext : TableContext :=
  { active_tables := [demoCandA]
    cached_tables := [("metrics_gpu", demoCandB), ("metrics_mem", demoCandC)] }

/-- The structured request the parser would produce for a question about
today, speculatively spanning the whole day (00:00 to 24:00 in minutes). -/
def todayRequest : StructuredRequest :=
  { intent := "aggregate"
    metric := "cpu_percent"
    time_range := { startMin := 0, endMin := 1440, mode := TimeMode.explicit }
    filters := []
    inherits_previous := false
    implies_relative_day := true
    has_temporal_language := true
    has_referential_language := false }

/-- A concrete one-table schema description. -/
def demoSchema : List TableSchemaDesc :=
  [{ table_id := "metrics_cpu", ddl_text := "cpu_percent float" }]

/-- A persisted hash record that already matches demoSchema. -/
def demoSyncStore : SyncStore :=
  { aggregate_hash := some (aggregateHash demoSchema)
    table_hashes := demoSchema.map (fun t => (t.table_id, tableHash t)) }

/-!
Helper lemmas about the buffer/line splitting and the read loop.
-/

theorem splitLines_cons_newline (cs : List Char) :
    splitLines ('\n' :: cs) = ([] :: (splitLines cs).1, (splitLines cs).2) := rfl

theorem splitLines_cons_of_ne {c : Char} (h : ¬ c = '\n') (cs : List Char) :
    splitLines (c :: cs) =
      match (splitLines cs).1 with
      | [] => ([], c :: (splitLines cs).2)
      | l :: ls => ((c :: l) :: ls, (splitLines cs).2) := by
  simp only [splitLines, if_neg h]

theorem splitLines_append (a b : List Char) :
    splitLines (a ++ b) =
      ((splitLines a).1 ++ mergeLines (splitLines a).2 (splitLines b).1,
       mergeFrag (splitLines a).2 (splitLines b).2 (splitLines b).1) := by
  induction a with
  | nil =>
    rcases hb : splitLines b with ⟨lb, fb⟩
    cases lb <;> simp [splitLines, mergeLines, mergeFrag, hb]
  | cons c a ih =>
    by_cases hc : c = '\n'
    · subst hc
      rw [List.cons_append, splitLines_cons_newline, splitLines_cons_newline, ih]
      cases hb : (splitLines b).1 <;> simp [mergeLines, mergeFrag]
    · rw [List.cons_append, splitLines_cons_of_ne hc, splitLines_cons_of_ne hc, ih]
      cases ha : (splitLines a).1 with
      | nil =>
        cases hb : (splitLines b).1 with
        | nil => simp [mergeLines, mergeFrag]
        | cons l ls => simp [mergeLines, mergeFrag]
      | cons l0 l0s =>
        cases hb : (splitLines b).1 <;> simp [mergeLines, mergeFrag]

theorem splitLines_frag_no_newline (s : List Char) : '\n' ∉ (splitLines s).2 := by
  induction s with
  | nil => simp [splitLines]
  | cons c cs ih =>
    by_cases hc : c = '\n'
    · subst hc
      rw [splitLines_cons_newline]
      exact ih
    · rw [splitLines_cons_of_ne hc]
      cases h1 : (splitLines cs).1 with
      | nil =>
        simp only []
        intro hmem
        rcases List.mem_cons.mp hmem with h | h
        · exact hc h.symm
        · exact ih h
      | cons l ls => exact ih

theorem splitLines_of_no_newline (s : List Char) (h : '\n' ∉ s) : splitLines s = ([], s) := by
  induction s with
  | nil => rfl
  | cons c cs ih =>
    have hc : ¬ c = '\n' := fun hh => h (hh ▸ List.mem_cons_self c cs)
    have ih2 := ih (fun hm => h (List.mem_cons_of_mem c hm))
    rw [splitLines_cons_of_ne hc, ih2]

theorem runLines_append (parse : List Char → Except String SSEEvent)
    (l1 l2 : List (List Char)) (st : LoopState) :
    runLines parse st (l1 ++ l2) =
      match runLines parse st l1 with
      | Except.ok st2 => runLines parse st2 l2
      | Except.error e => Except.error e := by
  induction l1 generalizing st with
  | nil => simp [runLines]
  | cons l ls ih =>
    rw [List.cons_append]
    simp only [runLines]
    cases processLine parse st l with
    | ok st2 => exact ih st2
    | error e => rfl

theorem runChunks_eq_runLines (parse : List Char → Except String SSEEvent)
    (cs : List (List Char)) : ∀ (st : LoopState) (buf : List Char), '\n' ∉ buf →
    runChunks parse st buf cs = runLines parse st (splitLines (buf ++ cs.flatten)).1 := by
  induction cs with
  | nil =>
    intro st buf hbuf
    rw [List.flatten_nil, List.append_nil, splitLines_of_no_newline buf hbuf]
    rfl
  | cons c cs ih =>
    intro st buf hbuf
    have hassoc : buf ++ (c :: cs).flatten = (buf ++ c) ++ cs.flatten := by
      rw [List.flatten_cons, List.append_assoc]
    rw [hassoc, splitLines_append, runLines_append]
    have hfrag : '\n' ∉ (splitLines (buf ++ c)).2 := splitLines_frag_no_newline (buf ++ c)
    have hfragsplit := splitLines_of_no_newline _ hfrag
    simp only [runChunks]
    cases hrun : runLines parse st (splitLines (buf ++ c)).1 with
    | ok st2 =>
      dsimp only
      rw [ih st2 (splitLines (buf ++ c)).2 hfrag, splitLines_append, hfragsplit]
      simp
    | error e => rfl

theorem query_eq_queryLines (parse : List Char → Except String SSEEvent)
    (chunks : List (List Char)) :
    ApiClient.query parse chunks = queryLines parse (processedLines chunks) := by
  unfold ApiClient.query queryLines processedLines
  rw [runChunks_eq_runLines parse chunks initialLoopState [] (by simp), List.nil_append]

theorem turnEvents_cons_none {l : List Char} (parse : List Char → Except String SSEEvent)
    (ls : List (List Char)) (h : dataPayload l = none) :
    turnEvents parse (l :: ls) = turnEvents parse ls := by
  simp [turnEvents, List.filterMap_cons, h]

theorem turnEvents_cons_some {l payload : List Char} (parse : List Char → Except String SSEEvent)
    (ls : List (List Char)) (h : dataPayload l = some payload) :
    turnEvents parse (l :: ls) = parse payload :: turnEvents parse ls := by
  simp [turnEvents, List.filterMap_cons, h]

theorem runLines_eq_runEvents (parse : List Char → Except String SSEEvent)
    (lines : List (List Char)) : ∀ st : LoopState,
    runLines parse st lines = runEvents st (turnEvents parse lines) := by
  induction lines with
  | nil => intro st; rfl
  | cons l ls ih =>
    intro st
    cases hd : dataPayload l with
    | none =>
      rw [turnEvents_cons_none parse ls hd]
      simp only [runLines, processLine, hd]
      exact ih st
    | some payload =>
      rw [turnEvents_cons_some parse ls hd]
      simp only [runLines, processLine, hd]
      cases hp : parse payload with
      | error e => rfl
      | ok ev =>
        cases hh : handleData st ev with
        | ok st2 =>
          simp only [runEvents, hh]
          exact ih st2
        | error e2 => simp [runEvents, hh]

theorem runEvents_append (a b : List (Except String SSEEvent)) (st : LoopState) :
    runEvents st (a ++ b) =
      match runEvents st a with
      | Except.ok st2 => runEvents st2 b
      | Except.error e => Except.error e := by
  induction a generalizing st with
  | nil => simp [runEvents]
  | cons e a ih =>
    cases e with
    | error m => rfl
    | ok ev =>
      rw [List.cons_append]
      simp only [runEvents]
      cases handleData st ev with
      | ok st2 => exact ih st2
      | error e2 => rfl

theorem runEvents_status_map (msgs : List String) : ∀ st : LoopState,
    runEvents st (msgs.map (fun m => Except.ok (SSEEvent.status m))) =
      Except.ok { finalResult := st.finalResult, statuses := st.statuses ++ msgs } := by
  induction msgs with
  | nil => intro st; simp [runEvents]
  | cons m ms ih =>
    intro st
    simp only [List.map_cons, runEvents, handleData]
    rw [ih]
    simp

theorem runEvents_nonThrowing (evs : List (Except String SSEEvent)) :
    ∀ st : LoopState, (∀ e ∈ evs, nonThrowing e = true) →
    ∃ fr, runEvents st evs = Except.ok { finalResult := fr, statuses := st.statuses ++ statusesOf evs } := by
  induction evs with
  | nil =>
    intro st _
    exact ⟨st.finalResult, by simp [runEvents, statusesOf]⟩
  | cons e evs ih =>
    intro st hok
    have hrest : ∀ x ∈ evs, nonThrowing x = true := fun x hx => hok x (List.mem_cons_of_mem e hx)
    have hhead : nonThrowing e = true := hok e (List.mem_cons_self e evs)
    cases e with
    | error m => simp [nonThrowing] at hhead
    | ok ev =>
      cases ev with
      | status m =>
        simp only [runEvents, handleData]
        obtain ⟨fr, hfr⟩ := ih _ hrest
        refine ⟨fr, ?_⟩
        rw [hfr]
        simp [statusesOf]
      | result p =>
        simp only [runEvents, handleData]
        obtain ⟨fr, hfr⟩ := ih _ hrest
        refine ⟨fr, ?_⟩
        rw [hfr]
        simp [statusesOf]
      | clarification m sid =>
        simp only [runEvents, handleData]
        obtain ⟨fr, hfr⟩ := ih _ hrest
        refine ⟨fr, ?_⟩
        rw [hfr]
        simp [statusesOf]
      | error m => simp [nonThrowing] at hhead
      | other =>
        simp only [runEvents, handleData]
        obtain ⟨fr, hfr⟩ := ih _ hrest
        refine ⟨fr, ?_⟩
        rw [hfr]
        simp [statusesOf]

theorem projVal_runEvents (evs : List (Except String SSEEvent)) : ∀ st : LoopState,
    projVal (runEvents st evs) = runVal st.finalResult evs := by
  induction evs with
  | nil => intro st; rfl
  | cons e evs ih =>
    intro st
    cases e with
    | error m => rfl
    | ok ev =>
      cases ev with
      | status m => simpa [runEvents, handleData, runVal] using ih _
      | result p => simpa [runEvents, handleData, runVal] using ih _
      | clarification m sid => simpa [runEvents, handleData, runVal] using ih _
      | error m => rfl
      | other => simpa [runEvents, handleData, runVal] using ih _

theorem runVal_coreEvents (evs : List (Except String SSEEvent)) :
    ∀ fr : Option QueryResponse, runVal fr evs = runVal fr (coreEvents evs) := by
  induction evs with
  | nil => intro fr; rfl
  | cons e evs ih =>
    intro fr
    cases e with
    | error m => simp [coreEvents, isStatusEvent, runVal, List.filter_cons]
    | ok ev =>
      cases ev with
      | status m => simpa [coreEvents, isStatusEvent, runVal, List.filter_cons] using ih fr
      | result p => simpa [coreEvents, isStatusEvent, runVal, List.filter_cons] using ih (some p)
      | clarification m sid =>
        simpa [coreEvents, isStatusEvent, runVal, List.filter_cons] using
          ih (some (clarificationResponse m sid))
      | error m => simp [coreEvents, isStatusEvent, runVal, List.filter_cons]
      | other => simpa [coreEvents, isStatusEvent, runVal, List.filter_cons] using ih fr

theorem valuePart_finishTurn (x : Except (String × List String) LoopState) :
    valuePart (finishTurn x) = valueOfRun (projVal x) := by
  cases x with
  | error e =>
    rcases e with ⟨m, sts⟩
    rfl
  | ok st =>
    cases h : st.finalResult <;> simp [finishTurn, projVal, valueOfRun, valuePart, h]

theorem stepAgent_counters_le (s : AgentTurnState) (o : NodeOutcome)
    (h1 : s.sql_retry_count ≤ MAX_SQL_RETRY)
    (h2 : s.validation_retry_count ≤ MAX_VALIDATION_RETRY) :
    (stepAgent s o).sql_retry_count ≤ MAX_SQL_RETRY ∧
      (stepAgent s o).validation_retry_count ≤ MAX_VALIDATION_RETRY := by
  rcases s with ⟨n, sc, vc, log, fr⟩
  cases n <;> cases o <;>
    dsimp only [stepAgent, MAX_SQL_RETRY, MAX_VALIDATION_RETRY] at * <;>
    (try split_ifs) <;>
    refine ⟨?_, ?_⟩ <;> (try dsimp only) <;> omega

theorem stepAgent_eq_or_measure_lt (s : AgentTurnState) (o : NodeOutcome) :
    stepAgent s o = s ∨ agentMeasure (stepAgent s o) < agentMeasure s := by
  rcases s with ⟨n, sc, vc, log, fr⟩
  cases n <;> cases o <;>
    dsimp only [stepAgent, MAX_SQL_RETRY, MAX_VALIDATION_RETRY] at * <;>
    (try split_ifs) <;>
    first
      | exact Or.inl rfl
      | (right
         dsimp only [agentMeasure, nodeRank, MAX_SQL_RETRY, MAX_VALIDATION_RETRY]
         omega)

theorem agentTrace_counters (os : List NodeOutcome) : ∀ s : AgentTurnState,
    s.sql_retry_count ≤ MAX_SQL_RETRY → s.validation_retry_count ≤ MAX_VALIDATION_RETRY →
    ∀ x ∈ agentTrace s os,
      x.sql_retry_count ≤ MAX_SQL_RETRY ∧ x.validation_retry_count ≤ MAX_VALIDATION_RETRY := by
  induction os with
  | nil =>
    intro s h1 h2 x hx
    simp only [agentTrace, List.mem_singleton] at hx
    subst hx
    exact ⟨h1, h2⟩
  | cons o os ih =>
    intro s h1 h2 x hx
    simp only [agentTrace, List.mem_cons] at hx
    rcases hx with rfl | hx
    · exact ⟨h1, h2⟩
    · have hstep := stepAgent_counters_le s o h1 h2
      exact ih (stepAgent s o) hstep.1 hstep.2 x hx

/-!
Claim theorems.
-/

/-- Claim C1: for every turn whose processed stream consists of zero or
more status events followed by exactly one terminal event (result,
clarification or error), ApiClient.query delivers exactly the status
messages to onStatus and then resolves on the result or clarification
event and rejects on the error event. -/
theorem apiclient_query_turn_contract
    (parse : List Char → Except String SSEEvent) (chunks : List (List Char))
    (msgs : List String) (t : SSEEvent)
    (hterm : isTerminalEvent t = true)
    (hshape : turnEvents parse (processedLines chunks) =
      msgs.map (fun m => Except.ok (SSEEvent.status m)) ++ [Except.ok t]) :
    ApiClient.query parse chunks = terminalOutcome t msgs := by
  rw [query_eq_queryLines]
  unfold queryLines
  rw [runLines_eq_runEvents, hshape, runEvents_append, runEvents_status_map]
  cases t with
  | status m => simp [isTerminalEvent] at hterm
  | result p => simp [runEvents, handleData, finishTurn, terminalOutcome, initialLoopState]
  | clarification m sid =>
    simp [runEvents, handleData, finishTurn, terminalOutcome, initialLoopState]
  | error m => simp [runEvents, handleData, finishTurn, terminalOutcome, initialLoopState]
  | other => simp [isTerminalEvent] at hterm

/-- Witness for C1 on a concrete chunked stream: one status event, then a
result event, split mid-line across two reads. -/
theorem apiclient_query_turn_contract_witness :
    ApiClient.query demoParse ["data: S\nda".toList, "ta: R\n".toList] =
      terminalOutcome (SSEEvent.result demoResponse) ["generating sql"] :=
  apiclient_query_turn_contract demoParse ["data: S\nda".toList, "ta: R\n".toList]
    ["generating sql"] (SSEEvent.result demoResponse) (by decide) (by decide)

/-- Claim C7: when the terminating event of the processed stream is a
clarification, ApiClient.query resolves (does not throw) with the
suspension response: ok true, data null, clarification_needed true, the
clarification message of the event and the session id of the event, so
the caller can resume the same thread. -/
theorem apiclient_query_clarification_resolution
    (parse : List Char → Except String SSEEvent) (chunks : List (List Char))
    (evs : List (Except String SSEEvent)) (m : String) (sid : Option String)
    (hok : ∀ e ∈ evs, nonThrowing e = true)
    (hshape : turnEvents parse (processedLines chunks) =
      evs ++ [Except.ok (SSEEvent.clarification m sid)]) :
    ApiClient.query parse chunks =
      TurnOutcome.resolved (clarificationResponse m sid) (statusesOf evs) ∧
    (clarificationResponse m sid).ok = true ∧
    (clarificationResponse m sid).data = none ∧
    (clarificationResponse m sid).clarification_needed = some true ∧
    (clarificationResponse m sid).clarification_message = some m ∧
    (clarificationResponse m sid).session_id = sid := by
  refine ⟨?_, rfl, rfl, rfl, rfl, rfl⟩
  rw [query_eq_queryLines]
  unfold queryLines
  rw [runLines_eq_runEvents, hshape, runEvents_append]
  obtain ⟨fr, hfr⟩ := runEvents_nonThrowing evs initialLoopState hok
  rw [hfr]
  simp [runEvents, handleData, finishTurn, initialLoopState]

/-- Witness for C7 on a concrete stream: a status event followed by a
clarification event. -/
theorem apiclient_query_clarification_resolution_witness :
    ApiClient.query demoParse ["data: S\ndata: C\n".toList] =
      TurnOutcome.resolved (clarificationResponse "which period?" (some "sess-1"))
        (statusesOf [Except.ok (SSEEvent.status "generating sql")]) ∧
    (clarificationResponse "which period?" (some "sess-1")).ok = true ∧
    (clarificationResponse "which period?" (some "sess-1")).data = none ∧
    (clarificationResponse "which period?" (some "sess-1")).clarification_needed = some true ∧
    (clarificationResponse "which period?" (some "sess-1")).clarification_message =
      some "which period?" ∧
    (clarificationResponse "which period?" (some "sess-1")).session_id = some "sess-1" :=
  apiclient_query_clarification_resolution demoParse ["data: S\ndata: C\n".toList]
    [Except.ok (SSEEvent.status "generating sql")] "which period?" (some "sess-1")
    (by decide) (by decide)

/-- Claim C8: a complete data line whose payload fails to parse makes the
current client reject the whole turn and return no result, even when a
well-formed result event follows later in the stream; when the bad line
is the first throwing line, the rejection carries that parse error. -/
theorem apiclient_query_parse_error_rejects_turn
    (parse : List Char → Except String SSEEvent) (chunks : List (List Char))
    (evs rest : List (Except String SSEEvent)) (pmsg : String)
    (hshape : turnEvents parse (processedLines chunks) =
      evs ++ Except.error pmsg :: rest) :
    (∃ m sts, ApiClient.query parse chunks = TurnOutcome.rejected m sts) ∧
    ((∀ e ∈ evs, nonThrowing e = true) →
      ApiClient.query parse chunks = TurnOutcome.rejected pmsg (statusesOf evs)) := by
  constructor
  · rw [query_eq_queryLines]
    unfold queryLines
    rw [runLines_eq_runEvents, hshape, runEvents_append]
    cases ha : runEvents initialLoopState evs with
    | error e =>
      rcases e with ⟨m, sts⟩
      exact ⟨m, sts, rfl⟩
    | ok st2 => exact ⟨pmsg, st2.statuses, rfl⟩
  · intro hok
    rw [query_eq_queryLines]
    unfold queryLines
    rw [runLines_eq_runEvents, hshape, runEvents_append]
    obtain ⟨fr, hfr⟩ := runEvents_nonThrowing evs initialLoopState hok
    rw [hfr]
    simp [runEvents, finishTurn, initialLoopState]

/-- Witness for C8 on a concrete stream: a status line, then a malformed
data line, then a well-formed result line that is nevertheless never
delivered. -/
theorem apiclient_query_parse_error_rejects_turn_witness :
    (∃ m sts,
      ApiClient.query demoParse ["data: S\ndata: BAD\ndata: R\n".toList] =
        TurnOutcome.rejected m sts) ∧
    ((∀ e ∈ [Except.ok (SSEEvent.status "generating sql")], nonThrowing e = true) →
      ApiClient.query demoParse ["data: S\ndata: BAD\ndata: R\n".toList] =
        TurnOutcome.rejected "Unexpected token in JSON"
          (statusesOf [Except.ok (SSEEvent.status "generating sql")])) :=
  apiclient_query_parse_error_rejects_turn demoParse ["data: S\ndata: BAD\ndata: R\n".toList]
    [Except.ok (SSEEvent.status "generating sql")]
    [Except.ok (SSEEvent.result demoResponse)] "Unexpected token in JSON" (by decide)

/-- Claim C9: ApiClient.query depends only on the concatenated stream
content, not on how it is cut into read chunks, and it equals the
line-level semantics of the complete (newline-terminated) lines: the
trailing fragment with no terminating newline is never processed. -/
theorem apiclient_query_chunking_invariance
    (parse : List Char → Except String SSEEvent) (chunks1 chunks2 : List (List Char))
    (h : chunks1.flatten = chunks2.flatten) :
    ApiClient.query parse chunks1 = ApiClient.query parse chunks2 ∧
    ApiClient.query parse chunks1 = queryLines parse (processedLines chunks1) := by
  constructor
  · rw [query_eq_queryLines, query_eq_queryLines]
    unfold processedLines
    rw [h]
  · exact query_eq_queryLines parse chunks1

/-- Witness for C9: the same stream cut at different positions, with a
final data line lacking its newline; the two chunkings agree. -/
theorem apiclient_query_chunking_invariance_witness :
    ApiClient.query demoParse ["data: S\ndata: R\ndata: X".toList] =
      ApiClient.query demoParse ["data: S\nda".toList, "ta: R\ndata".toList, ": X".toList] ∧
    ApiClient.query demoParse ["data: S\ndata: R\ndata: X".toList] =
      queryLines demoParse (processedLines ["data: S\ndata: R\ndata: X".toList]) :=
  apiclient_query_chunking_invariance demoParse
    ["data: S\ndata: R\ndata: X".toList]
    ["data: S\nda".toList, "ta: R\ndata".toList, ": X".toList] (by decide)

/-- Claim C10: the resolved value or thrown message of ApiClient.query is
unchanged when status events are inserted into or removed from the
stream: two streams with the same non-status events yield the same turn
value, status events only feed the onStatus callback. -/
theorem apiclient_query_status_noninterference
    (parse1 parse2 : List Char → Except String SSEEvent)
    (chunks1 chunks2 : List (List Char))
    (h : coreEvents (turnEvents parse1 (processedLines chunks1)) =
         coreEvents (turnEvents parse2 (processedLines chunks2))) :
    valuePart (ApiClient.query parse1 chunks1) = valuePart (ApiClient.query parse2 chunks2) := by
  have key : ∀ (parse : List Char → Except String SSEEvent) (chunks : List (List Char)),
      valuePart (ApiClient.query parse chunks) =
        valueOfRun (runVal none (coreEvents (turnEvents parse (processedLines chunks)))) := by
    intro parse chunks
    rw [query_eq_queryLines]
    unfold queryLines
    rw [valuePart_finishTurn, runLines_eq_runEvents, projVal_runEvents, runVal_coreEvents]
    rfl
  rw [key, key, h]

/-- Witness for C10: the same terminal result event with and without a
preceding status event yields the same turn value. -/
theorem apiclient_query_status_noninterference_witness :
    valuePart (ApiClient.query demoParse ["data: S\ndata: R\n".toList]) =
      valuePart (ApiClient.query demoParse ["data: R\n".toList]) :=
  apiclient_query_status_noninterference demoParse demoParse
    ["data: S\ndata: R\n".toList] ["data: R\n".toList] (by decide)

/-- Claim C2: along every execution of the orchestrator from the initial
turn state, sql_retry_count never exceeds MAX_SQL_RETRY and
validation_retry_count never exceeds MAX_VALIDATION_RETRY; a guard
violation or validation mismatch arriving with the budget already
exhausted transitions to the report node carrying a failure reason; and
every transition either leaves the state unchanged or strictly decreases
a natural-number measure, so neither cycle loops unboundedly. -/
theorem orchestrator_retry_bounds :
    (∀ (os : List NodeOutcome) (s : AgentTurnState), s ∈ agentTrace initialTurnState os →
        s.sql_retry_count ≤ MAX_SQL_RETRY ∧ s.validation_retry_count ≤ MAX_VALIDATION_RETRY) ∧
    (∀ (s : AgentTurnState) (r : String), s.node = GraphNode.guard_sql_node →
        MAX_SQL_RETRY ≤ s.sql_retry_count →
        (stepAgent s (NodeOutcome.guardViolation r)).node = GraphNode.generate_report ∧
        (stepAgent s (NodeOutcome.guardViolation r)).failure_reason.isSome = true) ∧
    (∀ (s : AgentTurnState) (r : String), s.node = GraphNode.validate_llm →
        MAX_VALIDATION_RETRY ≤ s.validation_retry_count →
        (stepAgent s (NodeOutcome.validationMismatch r)).node = GraphNode.generate_report ∧
        (stepAgent s (NodeOutcome.validationMismatch r)).failure_reason.isSome = true) ∧
    (∀ (s : AgentTurnState) (o : NodeOutcome),
        stepAgent s o = s ∨ agentMeasure (stepAgent s o) < agentMeasure s) := by
  refine ⟨?_, ?_, ?_, stepAgent_eq_or_measure_lt⟩
  · intro os s hs
    exact agentTrace_counters os initialTurnState (by simp [initialTurnState])
      (by simp [initialTurnState]) s hs
  · intro s r hnode hexh
    rcases s with ⟨n, sc, vc, log, fr⟩
    dsimp only at hnode hexh
    subst hnode
    dsimp only [stepAgent, MAX_SQL_RETRY] at hexh ⊢
    rw [if_neg (by omega)]
    exact ⟨rfl, rfl⟩
  · intro s r hnode hexh
    rcases s with ⟨n, sc, vc, log, fr⟩
    dsimp only at hnode hexh
    subst hnode
    dsimp only [stepAgent, MAX_VALIDATION_RETRY] at hexh ⊢
    rw [if_neg (by omega)]
    exact ⟨rfl, rfl⟩

/-- Witness for C2 at concrete states: the initial state respects both
bounds, the two exhausted states report with a failure reason, and the
first step from the initial state is covered by the measure alternative. -/
theorem orchestrator_retry_bounds_witness :
    (initialTurnState.sql_retry_count ≤ MAX_SQL_RETRY ∧
      initialTurnState.validation_retry_count ≤ MAX_VALIDATION_RETRY) ∧
    ((stepAgent exhaustedGuardState (NodeOutcome.guardViolation "unsafe DELETE")).node =
        GraphNode.generate_report ∧
      (stepAgent exhaustedGuardState
        (NodeOutcome.guardViolation "unsafe DELETE")).failure_reason.isSome = true) ∧
    ((stepAgent exhaustedValidationState
        (NodeOutcome.validationMismatch "time mode mismatch")).node =
          GraphNode.generate_report ∧
      (stepAgent exhaustedValidationState
        (NodeOutcome.validationMismatch "time mode mismatch")).failure_reason.isSome = true) ∧
    (stepAgent initialTurnState NodeOutcome.parsed = initialTurnState ∨
      agentMeasure (stepAgent initialTurnState NodeOutcome.parsed) <
        agentMeasure initialTurnState) :=
  ⟨orchestrator_retry_bounds.1 [] initialTurnState (by simp [agentTrace]),
   orchestrator_retry_bounds.2.1 exhaustedGuardState "unsafe DELETE" rfl (by decide),
   orchestrator_retry_bounds.2.2.1 exhaustedValidationState "time mode mismatch" rfl (by decide),
   orchestrator_retry_bounds.2.2.2 initialTurnState NodeOutcome.parsed⟩

/-- Claim C3: expand_tables issues no vector-index similarity search;
every requested id found in cached_tables has its candidate moved into
active_tables and no longer present in cached_tables after the call, and
everything returned is the metadata of a cached candidate whose id was
requested. -/
theorem expand_tables_cache_only (ctx : TableContext) (ids : List String) :
    (expand_tables ctx ids).vector_searches = [] ∧
    (∀ id c, (id, c) ∈ ctx.cached_tables → id ∈ ids →
      c ∈ (expand_tables ctx ids).ctx.active_tables ∧
      (∀ c2, (id, c2) ∉ (expand_tables ctx ids).ctx.cached_tables)) ∧
    (∀ c, c ∈ (expand_tables ctx ids).returned →
      ∃ id, (id, c) ∈ ctx.cached_tables ∧ id ∈ ids) := by
  refine ⟨rfl, ?_, ?_⟩
  · intro id c hmem hid
    constructor
    · unfold expand_tables
      dsimp only
      refine List.mem_append_right _ ?_
      refine List.mem_map.mpr ⟨(id, c), ?_, rfl⟩
      exact List.mem_filter.mpr ⟨hmem, by simpa using hid⟩
    · intro c2 hc2
      unfold expand_tables at hc2
      dsimp only at hc2
      rw [List.mem_filter] at hc2
      have h2 := hc2.2
      simp only [decide_eq_true_eq] at h2
      exact h2 hid
  · intro c hc
    unfold expand_tables at hc
    dsimp only at hc
    rw [List.mem_map] at hc
    obtain ⟨p, hp, hpc⟩ := hc
    rw [List.mem_filter] at hp
    refine ⟨p.1, ?_, ?_⟩
    · have : (p.1, p.2) ∈ ctx.cached_tables := by
        rw [Prod.mk.eta]
        exact hp.1
      rw [hpc] at this
      exact this
    · simpa using hp.2

/-- Witness for C3: moving one of two cached tables into the active set. -/
theorem expand_tables_cache_only_witness :
    (expand_tables demoTableContext ["metrics_gpu"]).vector_searches = [] ∧
    (demoCandB ∈ (expand_tables demoTableContext ["metrics_gpu"]).ctx.active_tables ∧
      ("metrics_gpu", demoCandB) ∉ (expand_tables demoTableContext ["metrics_gpu"]).ctx.cached_tables) :=
  ⟨(expand_tables_cache_only demoTableContext ["metrics_gpu"]).1,
   ⟨((expand_tables_cache_only demoTableContext ["metrics_gpu"]).2.1 "metrics_gpu" demoCandB
      (by decide) (by decide)).1,
    ((expand_tables_cache_only demoTableContext ["metrics_gpu"]).2.1 "metrics_gpu" demoCandB
      (by decide) (by decide)).2 demoCandB⟩⟩

/-- Claim C4: for a parsed request with temporal, non-referential,
today/relative-day phrasing whose end bound lies past the current moment,
the request guard makes no LLM call and deterministically clips the end
bound to now, in explicit mode, keeping the start bound. -/
theorem request_guard_clips_future_end (now : Nat) (r : StructuredRequest)
    (htemp : r.has_temporal_language = true)
    (href : r.has_referential_language = false)
    (hday : r.implies_relative_day = true)
    (hfut : now < r.time_range.endMin) :
    (guardRequest now r).llm_calls = [] ∧
    (guardRequest now r).request.time_range.mode = TimeMode.explicit ∧
    (guardRequest now r).request.time_range.startMin = r.time_range.startMin ∧
    (guardRequest now r).request.time_range.endMin = now := by
  simp [guardRequest, htemp, href, hday, hfut]

/-- Witness for C4, the spec test case: a request for today made at 15:00
(minute 900) with the parser having produced the range 00:00 to 24:00 is
clipped to end at 15:00, not 24:00. -/
theorem request_guard_clips_future_end_witness :
    (guardRequest 900 todayRequest).llm_calls = [] ∧
    (guardRequest 900 todayRequest).request.time_range.mode = TimeMode.explicit ∧
    (guardRequest 900 todayRequest).request.time_range.startMin =
      todayRequest.time_range.startMin ∧
    (guardRequest 900 todayRequest).request.time_range.endMin = 900 :=
  request_guard_clips_future_end 900 todayRequest (by decide) (by decide) (by decide) (by decide)

/-- Claim C5: a synchronizer run whose freshly computed aggregate hash
equals the persisted one performs zero embedding upserts (and zero
deletes) and leaves the persisted aggregate hash unchanged; in
particular a second run on the same schema never upserts. -/
theorem schema_sync_skip_unchanged (st : SyncStore) (schema : List TableSchemaDesc)
    (h : st.aggregate_hash = some (aggregateHash schema)) :
    (syncRun st schema).actions.upserts = [] ∧
    (syncRun st schema).actions.deletes = [] ∧
    (syncRun st schema).store.aggregate_hash = st.aggregate_hash ∧
    (syncRun (syncRun st schema).store schema).actions.upserts = [] := by
  have h1 : syncRun st schema = { store := st, actions := { upserts := [], deletes := [] } } := by
    unfold syncRun
    rw [if_pos h]
  refine ⟨?_, ?_, ?_, ?_⟩ <;> rw [h1]
  unfold syncRun
  rw [if_pos h]

/-- Witness for C5: a second run over an unchanged one-table schema
performs no upsert and keeps the hash. -/
theorem schema_sync_skip_unchanged_witness :
    (syncRun demoSyncStore demoSchema).actions.upserts = [] ∧
    (syncRun demoSyncStore demoSchema).actions.deletes = [] ∧
    (syncRun demoSyncStore demoSchema).store.aggregate_hash = demoSyncStore.aggregate_hash ∧
    (syncRun (syncRun demoSyncStore demoSchema).store demoSchema).actions.upserts = [] :=
  schema_sync_skip_unchanged demoSyncStore demoSchema rfl

/-- Claim C6: the SQL safety guard verdict is a deterministic pattern
check: any statement containing a denylisted destructive keyword is
rejected, any input failing the single well-formed statement check is
rejected, everything else is accepted; and at the guard node with budget
remaining a rejection increments sql_retry_count and routes back to the
generator with the rejection reason appended to the retry log. -/
theorem guard_sql_denylist_and_retry :
    (∀ sql kw, kw ∈ denylist → containsToken sql kw = true →
      ∃ r, guardSql sql = GuardVerdict.rejected r) ∧
    (∀ sql, singleWellFormed sql = false → ∃ r, guardSql sql = GuardVerdict.rejected r) ∧
    (∀ sql, singleWellFormed sql = true → (∀ kw ∈ denylist, containsToken sql kw = false) →
      guardSql sql = GuardVerdict.ok) ∧
    (∀ (s : AgentTurnState) (r : String), s.node = GraphNode.guard_sql_node →
      s.sql_retry_count < MAX_SQL_RETRY →
      stepAgent s (verdictOutcome (GuardVerdict.rejected r)) =
        { s with node := GraphNode.generate_sql
                 sql_retry_count := s.sql_retry_count + 1
                 retry_log := s.retry_log ++ [r] }) := by
  refine ⟨?_, ?_, ?_, ?_⟩
  · intro sql kw hkw hct
    unfold guardSql
    cases hw : singleWellFormed sql with
    | false => exact ⟨_, by rw [if_pos rfl]⟩
    | true =>
      have hsome : (denylist.find? (fun kw2 => containsToken sql kw2)).isSome := by
        rw [List.find?_isSome]
        exact ⟨kw, hkw, hct⟩
      obtain ⟨kw2, hkw2⟩ := Option.isSome_iff_exists.mp hsome
      refine ⟨"destructive keyword blocked: " ++ kw2, ?_⟩
      rw [if_neg (by simp [hw]), hkw2]
  · intro sql hw
    exact ⟨_, by unfold guardSql; rw [if_pos hw]⟩
  · intro sql hw hnone
    unfold guardSql
    rw [if_neg (by simp [hw])]
    have hfind : denylist.find? (fun kw => containsToken sql kw) = none := by
      rw [List.find?_eq_none]
      intro x hx
      simp [hnone x hx]
    rw [hfind]
  · intro s r hnode hlt
    rcases s with ⟨n, sc, vc, log, fr⟩
    dsimp only at hnode hlt
    subst hnode
    dsimp only [verdictOutcome, stepAgent]
    rw [if_pos hlt]

/-- Witness for C6: the spec scenario: a DELETE statement is rejected, an
empty input is rejected, a plain SELECT is accepted, and at the guard
node the rejection re-enters the generator with the reason logged and the
counter incremented. -/
theorem guard_sql_denylist_and_retry_witness :
    (∃ r, guardSql "DELETE FROM metrics_cpu" = GuardVerdict.rejected r) ∧
    (∃ r, guardSql "" = GuardVerdict.rejected r) ∧
    guardSql "SELECT AVG(cpu_percent) FROM metrics_cpu" = GuardVerdict.ok ∧
    stepAgent guardNodeState
        (verdictOutcome (GuardVerdict.rejected "destructive keyword blocked: DELETE")) =
      { guardNodeState with
          node := GraphNode.generate_sql
          sql_retry_count := guardNodeState.sql_retry_count + 1
          retry_log := guardNodeState.retry_log ++ ["destructive keyword blocked: DELETE"] } :=
  ⟨guard_sql_denylist_and_retry.1 "DELETE FROM metrics_cpu" "DELETE" (by decide) (by decide),
   guard_sql_denylist_and_retry.2.1 "" (by decide),
   guard_sql_denylist_and_retry.2.2.1 "SELECT AVG(cpu_percent) FROM metrics_cpu"
     (by decide) (by decide),
   guard_sql_denylist_and_retry.2.2.2 guardNodeState "destructive keyword blocked: DELETE"
     rfl (by decide)⟩
